import Mathlib

/-!
Verification of the traffic-agent-model repository (src/Agent.py,
src/track_interface.py, src/model.py).

The Python code is shallowly embedded: Python floats become rationals
(`ℚ`), `np.inf` (which only arises for the gap / leader speed / leader
acceleration of a vehicle that is its own leader) becomes `⊤ : WithTop ℚ`
in the extended variants of the decision functions, Python `%` on floats
becomes `pymod`, Python `None` becomes `Option`, Python exceptions
(`assert`, `ValueError`, `IndexError`, `AttributeError`) become
`Except String`, and the random draws (`np.random.rand()`) become
explicit parameters.  Mutation of `self` becomes explicit state passing
on the `Veh` structure; Python object identity (`is`, default `==` on
objects) is modelled by a vehicle `id` field, faithful whenever the ids
in play are distinct.
-/

namespace Traffic

/-- Python `a % b` on floats (for `b > 0`): result has the sign of `b`,
`a % b = a - b * floor (a / b)`. -/
def pymod (a b : ℚ) : ℚ := a - b * ⌊a / b⌋

/-- State of `VehicleAgent` (src/Agent.py, `__init__`).  The `id` field models
Python object identity.  `next_speed` is not assigned in `__init__`, hence
`Option ℚ` with `none` at construction. -/
structure Veh where
  id : ℕ
  position : ℚ
  current_speed : ℚ
  desired_speed : ℚ
  max_speed : ℚ
  length : ℚ
  a_normal : ℚ
  a_max : ℚ
  b : ℚ
  TP : ℚ
  AC : ℚ
  acceleration : ℚ
  next_speed : Option ℚ
  speed_list : List ℚ
  position_list : List ℚ
  lane_list : List ℕ
  deriving DecidableEq

/-- Constructor `VehicleAgent.__init__`: sets the attributes, `acceleration = 0`, and the
three history lists to `[0]`; default parameter values are those of the
Python signature. -/
def mkVehicle (id : ℕ) (position current_speed : ℚ)
    (desired_speed : ℚ := 30) (max_speed : ℚ := 35) (length : ℚ := 5)
    (a_normal : ℚ := 305/100) (a_max : ℚ := 604/100) (b : ℚ := 2/10)
    (TP : ℚ := 12/10) (AC : ℚ := 5/10) : Veh :=
  { id := id
    position := position
    current_speed := current_speed
    desired_speed := desired_speed
    max_speed := max_speed
    length := length
    a_normal := a_normal
    a_max := a_max
    b := b
    TP := TP
    AC := AC
    acceleration := 0
    next_speed := none
    speed_list := [0]
    position_list := [0]
    lane_list := [0] }

/-- Method `VehicleAgent.reset_data`. -/
def resetData (v : Veh) : Veh :=
  { v with speed_list := [0], position_list := [0], lane_list := [0] }

/-- Method `VehicleAgent.acceleration_rate`. -/
def accelerationRate (vF : ℚ) : ℚ :=
  if vF ≤ 1219/100 then 11/10 else 37/100

/-- Method `VehicleAgent.decceleration_rate` (src/Agent.py lines 134-162): four
guarded early returns, default `0`. -/
def deccelerationRate (v : Veh) (vF vL aL gap gap_desire : ℚ) : ℚ :=
  -- case 1: free flowing case
  if v.desired_speed < vF then min ((vF - v.desired_speed) / 3) v.a_normal
  -- case 2: car-following regime, normal decceleration
  else if gap - gap_desire = 0 ∧ ¬ (vF ≤ vL) then (vF ^ 2 - vL ^ 2) / (2 * gap)
  -- case 3: emergency decceleration
  else if gap - gap_desire < 0 ∧ ¬ (vF < vL) then aL - (25/100) * v.a_normal
  -- case 4: near-collision decceleration
  else if 0 < gap - gap_desire ∧ ¬ (vF ≤ vL) ∧ ¬ (3 * vF < gap) ∧
      ¬ (2 * vF < gap ∧ 15/2 < gap) then
    min (aL + (vF - vL) ^ 2 / (2 * gap)) v.a_max
  else 0

/-- The value `VehicleAgent.compute_decision` (src/Agent.py lines 63-132)
writes to `self.acceleration`: the decision tree, one leaf value per
reached branch.  The final `else` branches (no `delta` comparison holds)
cannot fire over `ℚ` and leave the acceleration unchanged, as the Python
`if/elif` chain would. -/
def computeDecisionVal (v : Veh) (gap vL aL : ℚ) : ℚ :=
  let vF := v.current_speed
  let gap_desire := vF * v.TP
  if gap < 6 * vF then
    let delta := gap - gap_desire
    if 0 < delta then
      if vF ≤ vL then accelerationRate vF
      else if 3 * vF < gap then accelerationRate vF
      else if 2 * vF < gap ∧ 15/2 < gap then 0
      else deccelerationRate v vF vL aL gap gap_desire
    else if delta = 0 then
      if vF ≤ vL then 0
      else deccelerationRate v vF vL aL gap gap_desire
    else if delta < 0 then
      if vF < vL then 0
      else deccelerationRate v vF vL aL gap gap_desire
    else v.acceleration
  else
    let delta := vF - v.desired_speed
    if delta < 0 then accelerationRate vF
    else if delta = 0 then 0
    else if 0 < delta then deccelerationRate v vF vL aL gap gap_desire
    else v.acceleration

/-- Method `VehicleAgent.compute_decision`: runs the tree and stores the decided
acceleration; no other attribute is touched. -/
def computeDecision (v : Veh) (gap vL aL : ℚ) : Veh :=
  { v with acceleration := computeDecisionVal v gap vL aL }

/-- Method `VehicleAgent.compute_safe_speed` (reaction time 1). -/
def computeSafeSpeed (v : Veh) (gap leader_speed : ℚ) : ℚ :=
  leader_speed +
    (gap - leader_speed * 1) /
      (1 + (v.current_speed + leader_speed) / (2 * v.a_max))

/-- Method `VehicleAgent.calculate_next_state` (src/Agent.py lines 268-311) for
finite arguments.  `mean_speed = none` means no centralized control.  The
random draws are explicit: `etaDraw` is the `np.random.rand()` noise draw
(used only when `mean_speed` is `none`; under control `eta = 0.5`), and
`pushDraw` is the `np.random.rand()` compared against `AC` for the
speed-push. -/
def calculateNextState (v : Veh) (gap leader_speed leader_acceleration dt : ℚ)
    (mean_speed : Option ℚ) (max_accel speed_push : ℚ)
    (etaDraw pushDraw : ℚ) : Veh :=
  let v1 := computeDecision v gap leader_speed leader_acceleration
  let v_safe := computeSafeSpeed v1 gap leader_speed
  let v_ideal := min (min v1.max_speed (v1.current_speed + v1.acceleration * dt)) v_safe
  let eta : ℚ := match mean_speed with
    | none => etaDraw
    | some _ => 1/2
  let ns := max 0 (v_ideal - v1.b * eta)
  match mean_speed with
  | none => { v1 with next_speed := some ns }
  | some m =>
      let dif_speed := max (-max_accel) (min max_accel (m - ns))
      let ns2 := ns + dif_speed
      let ns3 := if 0 < gap + 3 * (leader_speed - ns2) ∧ pushDraw < v1.AC
        then ns2 + speed_push else ns2
      { v1 with next_speed := some ns3 }

/-! Section: Extended decision functions

`Track.calculate_next_state` passes `np.inf` for the gap, leader speed and
leader acceleration of a vehicle that is its own leader.  `WithTop ℚ`
models these values, `⊤` standing for `np.inf`; its order agrees with IEEE
comparisons against `+inf` (`inf < x` false, `inf ≥ x` true, `inf == q`
false).  `⊤ - q = ⊤` (via `Option.map`) matches `inf - finite = inf`. -/

/-- Method `VehicleAgent.decceleration_rate` with possibly-infinite `vL`, `aL`,
`gap`.  In case 2 the guard forces `gap` and `vL` finite (an infinite `gap`
fails `gap - gap_desire == 0`, an infinite `vL` fails `not vL >= vF`), and
in case 4 the guards force `vL < vF` and `gap ≤ 3·vF` finite, so the
`untop' 0` defaults there are never the value taken; in cases 3 and 4 an
infinite `aL` propagates exactly as IEEE `inf - finite = inf` and
`min (inf + finite) a_max = a_max` would. -/
def deccelerationRateE (v : Veh) (vF : ℚ) (vL aL gap : WithTop ℚ)
    (gap_desire : ℚ) : WithTop ℚ :=
  if v.desired_speed < vF then
    ((min ((vF - v.desired_speed) / 3) v.a_normal : ℚ) : WithTop ℚ)
  else if gap.map (· - gap_desire) = 0 ∧ ¬ ((vF : WithTop ℚ) ≤ vL) then
    (((vF ^ 2 - (vL.untop' 0) ^ 2) / (2 * gap.untop' 0) : ℚ) : WithTop ℚ)
  else if gap.map (· - gap_desire) < 0 ∧ ¬ ((vF : WithTop ℚ) < vL) then
    aL.map (· - (25/100) * v.a_normal)
  else if 0 < gap.map (· - gap_desire) ∧ ¬ ((vF : WithTop ℚ) ≤ vL) ∧
      ¬ (((3 * vF : ℚ) : WithTop ℚ) < gap) ∧
      ¬ (((2 * vF : ℚ) : WithTop ℚ) < gap ∧ ((15/2 : ℚ) : WithTop ℚ) < gap) then
    min (aL.map (· + (vF - vL.untop' 0) ^ 2 / (2 * gap.untop' 0)))
      ((v.a_max : ℚ) : WithTop ℚ)
  else 0

/-- Method `VehicleAgent.compute_decision` with possibly-infinite `gap`, `vL`,
`aL`; returns the value written to `self.acceleration` (the fall-through
case, unreachable over non-NaN floats, returns the old value, as Python
leaves the attribute unchanged). -/
def computeDecisionE (v : Veh) (gap vL aL : WithTop ℚ) : WithTop ℚ :=
  let vF := v.current_speed
  let gap_desire := vF * v.TP
  if gap < ((6 * vF : ℚ) : WithTop ℚ) then
    let delta := gap.map (· - gap_desire)
    if 0 < delta then
      if (vF : WithTop ℚ) ≤ vL then (accelerationRate vF : ℚ)
      else if ((3 * vF : ℚ) : WithTop ℚ) < gap then (accelerationRate vF : ℚ)
      else if ((2 * vF : ℚ) : WithTop ℚ) < gap ∧ ((15/2 : ℚ) : WithTop ℚ) < gap then 0
      else deccelerationRateE v vF vL aL gap gap_desire
    else if delta = 0 then
      if (vF : WithTop ℚ) ≤ vL then 0
      else deccelerationRateE v vF vL aL gap gap_desire
    else if delta < 0 then
      if (vF : WithTop ℚ) < vL then 0
      else deccelerationRateE v vF vL aL gap gap_desire
    else (v.acceleration : ℚ)
  else
    let delta := vF - v.desired_speed
    if delta < 0 then (accelerationRate vF : ℚ)
    else if delta = 0 then 0
    else if 0 < delta then deccelerationRateE v vF vL aL gap gap_desire
    else (v.acceleration : ℚ)

/-- Method `VehicleAgent.calculate_next_state` evaluated at
`gap = leader_speed = leader_acceleration = np.inf` (the call made by
`Track.calculate_next_state` for a self-leading vehicle), under IEEE
float semantics:
* the decision is `computeDecisionE v ⊤ ⊤ ⊤`, a finite value (the tree
  lands in the free-flow branch, see `carInFrontSingletonFreeFlow`);
* `v_safe = inf + (inf - inf·1)/(…) = nan` since `np.inf - np.inf` is nan;
* Python's `min(max_speed, current + a·dt, nan)` drops the nan, because
  `min` keeps the current best when `nan < best` is `False`;
* the speed-push guard `0 < gap + 3·(leader_speed - next_speed)` compares
  `0 < inf`, which is `True`. -/
def calculateNextStateInf (v : Veh) (dt : ℚ) (mean_speed : Option ℚ)
    (max_accel speed_push : ℚ) (etaDraw pushDraw : ℚ) : Veh :=
  let a := (computeDecisionE v ⊤ ⊤ ⊤).untop' 0
  let v1 := { v with acceleration := a }
  let v_ideal := min v1.max_speed (v1.current_speed + v1.acceleration * dt)
  let eta : ℚ := match mean_speed with
    | none => etaDraw
    | some _ => 1/2
  let ns := max 0 (v_ideal - v1.b * eta)
  match mean_speed with
  | none => { v1 with next_speed := some ns }
  | some m =>
      let dif_speed := max (-max_accel) (min max_accel (m - ns))
      let ns2 := ns + dif_speed
      let ns3 := if pushDraw < v1.AC then ns2 + speed_push else ns2
      { v1 with next_speed := some ns3 }

/-! Section: Lane-switch decision logic (src/Agent.py lines 173-258) -/

/-- A `(car_in_front, car_in_back)` pair for an adjacent lane, or `none`
when the lane does not exist (`closest_cars_sides` stores `None`). -/
abbrev Side := Option (Option Veh × Option Veh)

/-- Method `VehicleAgent.can_switch_lane`.  The mixed cases (exactly one of the
pair `None`) cannot be produced by `Track.closest_cars_sides` (front and
back are `None` together, exactly when the lane is empty); Python would
raise `AttributeError` on the second comparison there, modelled as
`false`.  `car_front == car_behind` is Python object identity, modelled
by `id`. -/
def canSwitchLane (v : Veh) : Side → Bool
  | none => false
  | some (none, none) => true
  | some (some cf, some cb) =>
      if cf.id = cb.id then
        decide (v.position < cf.position - cf.length ∨ cf.position < v.position - v.length)
      else if cf.position - cf.length < v.position then false
      else if v.position - v.length < cb.position then false
      else true
  | some _ => false

/-- Python `==` on the `(front, back)` tuples held in
`closest_cars_sides`' dictionary: tuples compare componentwise, vehicles
by object identity, `None` only equals `None`. -/
def sideEq : Side → Side → Bool
  | none, none => true
  | some (f1, b1), some (f2, b2) =>
      (match f1, f2 with
        | none, none => true
        | some a, some b => a.id = b.id
        | _, _ => false) &&
      (match b1, b2 with
        | none, none => true
        | some a, some b => a.id = b.id
        | _, _ => false)
  | _, _ => false

/-- Method `VehicleAgent.can_switch_lanes`: asserts `cars_left != cars_right`,
then returns the pair of `can_switch_lane` results. -/
def canSwitchLanes (v : Veh) (cars_left cars_right : Side) :
    Except String (Bool × Bool) :=
  if sideEq cars_left cars_right then
    Except.error "AssertionError: cars_left == cars_right"
  else Except.ok (canSwitchLane v cars_left, canSwitchLane v cars_right)

/-- Method `VehicleAgent.traditional_lane_switch` (src/Agent.py lines 220-245).
`1` = switch left, `-1` = switch right, `0` = stay.  The `none` case for
`cars_right` under `can_go_right` is unreachable (`can_switch_lane none`
is `false`; Python would raise `TypeError` subscripting `None`). -/
def traditionalLaneSwitch (v car_front : Veh) (cars_left cars_right : Side)
    (road_length : ℚ) : Except String ℤ :=
  (canSwitchLanes v cars_left cars_right).map (fun cans =>
    let can_go_left := cans.1
    let can_go_right := cans.2
    if can_go_left = false ∧ can_go_right = false then 0
    else
      let speed_difference := car_front.current_speed - v.current_speed
      let gap := pymod (car_front.position - v.position) road_length
      if speed_difference < -5 ∧ gap < v.current_speed * 5 then
        if can_go_left then 1 else 0
      else if can_go_right then
        match cars_right with
        | some (none, _) => -1
        | some (some car_front_right, _) =>
            if 200 < pymod (car_front_right.position - v.position) road_length
            then -1 else 0
        | none => 0
      else 0)

/-- Method `VehicleAgent.lane_switch`: delegates to `traditional_lane_switch`. -/
def laneSwitch (v car_front : Veh) (cars_left cars_right : Side)
    (road_length : ℚ) : Except String ℤ :=
  traditionalLaneSwitch v car_front cars_left cars_right road_length

/-- Method `VehicleAgent.update_state`: commits `next_speed`, integrates the
position, appends to the history lists.  Reading `next_speed` before any
`calculate_next_state` raises `AttributeError` in Python; the default `0`
used here is unreachable in every use below, where a decision step always
precedes the commit. -/
def updateState (v : Veh) (dt : ℚ) (lane : ℕ) : Veh :=
  let ns := v.next_speed.getD 0
  let pos := v.position + ns * dt
  { v with
    current_speed := ns
    position := pos
    speed_list := v.speed_list ++ [ns]
    position_list := v.position_list ++ [pos]
    lane_list := v.lane_list ++ [lane] }

/-! Section: Track (src/track_interface.py) -/

/-- State of `Track`: the per-lane vehicle lists plus the constructor
parameters that the per-timestep passes read.  `lanes_count` is the
length of `lanes` (`lane_count` at construction, never changed). -/
structure TrackState where
  lanes : List (List Veh)
  length : ℚ
  dt : ℚ
  central_control : Bool
  max_accel : ℚ
  speed_push : ℚ
  deriving DecidableEq

/-- Method `Track.car_in_front`: first vehicle with strictly greater position,
wrapping to the lane's first vehicle; `None` when the lane is empty.
Assumes the lane is sorted (as the Python docstring states). -/
def carInFront (lane : List Veh) (position : ℚ) : Option Veh :=
  match lane with
  | [] => none
  | v0 :: _ => some ((lane.find? (fun veh => position < veh.position)).getD v0)

/-- Method `Track.car_in_back`: first vehicle with strictly smaller position,
scanning from the end, wrapping to the lane's last vehicle. -/
def carInBack (lane : List Veh) (position : ℚ) : Option Veh :=
  match lane with
  | [] => none
  | v0 :: rest =>
      some ((lane.reverse.find? (fun veh => veh.position < position)).getD
        ((v0 :: rest).getLast (List.cons_ne_nil v0 rest)))

/-- Method `Track.closest_cars_sides`: the `(front, back)` pairs for
`cur_lane + 1` (left) and `cur_lane - 1` (right), `none` when that lane
index falls outside `[0, lanes_count)`. -/
def closestCarsSides (st : TrackState) (cur_lane : ℕ) (position : ℚ) :
    Side × Side :=
  let n := st.lanes.length
  let left : Side :=
    if cur_lane + 1 < n then
      let l := (st.lanes.get? (cur_lane + 1)).getD []
      some (carInFront l position, carInBack l position)
    else none
  let right : Side :=
    if 0 < cur_lane ∧ cur_lane - 1 < n then
      let l := (st.lanes.get? (cur_lane - 1)).getD []
      some (carInFront l position, carInBack l position)
    else none
  (left, right)

/-- Method `Track.switch_lane` (src/track_interface.py lines 146-166): asserts
the destination lane index is in bounds, returns unchanged for
`count == 0` or an empty source lane, otherwise removes the first vehicle
whose position equals `position` from the source lane and appends it to
the destination lane; `ValueError` when no vehicle matches.  An invalid
source index raises `IndexError` in Python. -/
def switchLane (st : TrackState) (lane : ℕ) (position : ℚ) (count : ℤ) :
    Except String TrackState :=
  let new_lane := (lane : ℤ) + count
  if ¬ (0 ≤ new_lane ∧ new_lane < st.lanes.length) then
    Except.error "AssertionError: new lane out of bounds"
  else if count = 0 then Except.ok st
  else
    match st.lanes.get? lane with
    | none => Except.error "IndexError: list index out of range"
    | some src =>
        if src = [] then Except.ok st
        else
          match src.find? (fun veh => veh.position = position) with
          | none => Except.error "ValueError: no car at position"
          | some veh =>
              let nl := new_lane.toNat
              let l1 := st.lanes.set lane (src.eraseP (fun w => w.position = position))
              let l2 := l1.set nl (((l1.get? nl).getD []) ++ [veh])
              Except.ok { st with lanes := l2 }

/-- Python `lane.sort()`: a stable sort by `position` (vehicles compare by
`__lt__` on `position`); any stable sort computes the same list, so
insertion sort stands in for Timsort. -/
def sortLane (lane : List Veh) : List Veh :=
  lane.insertionSort (fun a b => a.position ≤ b.position)

/-- The body of the `for vehicle in lane` loop of `Track.lane_switches`,
with Python's list-iteration semantics made explicit: the loop keeps an
index into the *current* state of the lane list, which `switch_lane`
mutates in place (removing the current vehicle shifts the survivors
down, so the next one is skipped).  `fuel` only forces termination; the
lane can only shrink during its own loop, so any `fuel` larger than the
lane length completes the loop. -/
def laneSwitchesInner (st : TrackState) (i : ℕ) (idx : ℕ) :
    ℕ → Except String TrackState
  | 0 => Except.error "fuel exhausted"
  | fuel + 1 =>
      let lane := (st.lanes.get? i).getD []
      if h : idx < lane.length then
        let veh := lane.get ⟨idx, h⟩
        match carInFront lane veh.position with
        | none => Except.error "AttributeError: NoneType"
        | some front =>
            let sides := closestCarsSides st i veh.position
            match laneSwitch veh front sides.1 sides.2 st.length with
            | Except.error e => Except.error e
            | Except.ok count =>
                match switchLane st i veh.position count with
                | Except.error e => Except.error e
                | Except.ok st2 => laneSwitchesInner st2 i (idx + 1) fuel
      else Except.ok st

/-- One outer-loop iteration of `Track.lane_switches`: sort lane `i` in
place, then run the per-vehicle loop over it. -/
def laneSwitchesLane (s : TrackState) (i : ℕ) : Except String TrackState :=
  let s1 := { s with lanes := s.lanes.set i (sortLane ((s.lanes.get? i).getD [])) }
  laneSwitchesInner s1 i 0 ((s1.lanes.map List.length).sum + 1)

/-- Method `Track.lane_switches` (src/track_interface.py lines 61-70): for each
lane index in order, sort that lane, then run the per-vehicle loop. -/
def laneSwitches (st : TrackState) : Except String TrackState :=
  (List.range st.lanes.length).foldlM laneSwitchesLane st

/-! Section: The decision pass (`Track.calculate_next_state`, lines 103-139) -/

/-- One vehicle's step against an already-identified (distinct) leader:
gap `(leader.position - vehicle.position) % length` minus the leader's
length, floored at `0`, then `VehicleAgent.calculate_next_state`. -/
def vehPairStep (L dt : ℚ) (ms : Option ℚ) (ma sp : ℚ) (eta push : ℚ)
    (v leader : Veh) : Veh :=
  let gap := max 0 (pymod (leader.position - v.position) L - leader.length)
  calculateNextState v gap leader.current_speed leader.acceleration dt ms ma sp eta push

/-- One vehicle's step inside the decision pass: find the leader in the
current lane contents `cur`, and either step against it (`leader is not
vehicle`, modelled by `id`) or run the infinite-argument step.  The
`none` case is unreachable (`cur` contains `v`). -/
def vehStep (L dt : ℚ) (ms : Option ℚ) (ma sp : ℚ) (eta push : ℚ)
    (cur : List Veh) (v : Veh) : Veh :=
  match carInFront cur v.position with
  | none => v
  | some leader =>
      if leader.id ≠ v.id then
        vehPairStep L dt ms ma sp eta push v leader
      else
        calculateNextStateInf v dt ms ma sp eta push

/-- The `for vehicle in lane` loop of the decision pass.  The vehicles'
accelerations and staged speeds are updated in place as the loop walks
the lane, so each step's `car_in_front` scan sees the already-updated
prefix (`pre`) followed by the untouched rest; `k` indexes the random
draws in program order. -/
def laneSeqGo (L dt : ℚ) (ms : Option ℚ) (ma sp : ℚ) (eta push : ℕ → ℚ) :
    List Veh → List Veh → ℕ → List Veh
  | pre, [], _ => pre
  | pre, v :: rest, k =>
      let v2 := vehStep L dt ms ma sp (eta k) (push k) (pre ++ v :: rest) v
      laneSeqGo L dt ms ma sp eta push (pre ++ [v2]) rest (k + 1)

/-- The lane's mean current speed under central control: `None` for an
empty lane (`ZeroDivisionError` handler), else the arithmetic mean. -/
def laneMeanSpeed (central : Bool) (lane : List Veh) : Option ℚ :=
  if central then
    match lane with
    | [] => none
    | _ => some ((lane.map Veh.current_speed).sum / (lane.length : ℚ))
  else none

/-- The decision pass on one lane: sort, compute the mean speed, then run
the sequential per-vehicle loop. -/
def laneDecisionPass (L dt : ℚ) (central : Bool) (ma sp : ℚ)
    (eta push : ℕ → ℚ) (lane : List Veh) : List Veh :=
  let sorted := sortLane lane
  laneSeqGo L dt (laneMeanSpeed central sorted) ma sp eta push [] sorted 0

/-- Method `Track.calculate_next_state`: the decision pass over all lanes.  The
draws `eta push` are indexed by lane and by order of processing within
the lane. -/
def trackCalculateNextState (st : TrackState) (eta push : ℕ → ℕ → ℚ) :
    TrackState :=
  { st with
    lanes := st.lanes.mapIdx (fun li lane =>
      laneDecisionPass st.length st.dt st.central_control st.max_accel
        st.speed_push (eta li) (push li) lane) }

/-- Method `Track.update_state`: commit every vehicle, passing its lane index. -/
def trackUpdateState (st : TrackState) : TrackState :=
  { st with
    lanes := st.lanes.mapIdx (fun li lane =>
      lane.map (fun v => updateState v st.dt li)) }

/-! Section: Spec-side reference definitions

These follow the wording of the specification / claims, to be compared
with the definitions above, which follow the code. -/

/-- The three actions of the decision tree. -/
inductive Action where
  | accelerate
  | cruise
  | decelerate
  deriving DecidableEq

/-- The five-branch decision tree as the spec words it: near-field
(`gap < 6·v_F`) splits on the sign of `delta = gap - gap_desire`;
`delta > 0` accelerates when `v_L ≥ v_F` or `gap > 3·v_F`, cruises when
`gap > 2·v_F` and `gap > 7.5`, else decelerates; `delta = 0` cruises when
`v_L ≥ v_F`; `delta < 0` cruises when `v_L > v_F` strictly; far-field
compares `v_F` with `desired_speed`. -/
def specDecisionTree (v : Veh) (gap vL : ℚ) : Action :=
  let vF := v.current_speed
  let gap_desire := vF * v.TP
  if gap < 6 * vF then
    let delta := gap - gap_desire
    if 0 < delta then
      if vF ≤ vL ∨ 3 * vF < gap then Action.accelerate
      else if 2 * vF < gap ∧ 15/2 < gap then Action.cruise
      else Action.decelerate
    else if delta = 0 then
      if vF ≤ vL then Action.cruise else Action.decelerate
    else
      if vF < vL then Action.cruise else Action.decelerate
  else
    if v.current_speed < v.desired_speed then Action.accelerate
    else if v.current_speed = v.desired_speed then Action.cruise
    else Action.decelerate

/-- The acceleration value the spec attaches to each action: accelerate
writes `acceleration_rate(v_F)`, cruise writes `0`, decelerate writes
`decceleration_rate(v_F, v_L, a_L, gap, gap_desire)`. -/
def actionValue (v : Veh) (gap vL aL : ℚ) : Action → ℚ
  | Action.accelerate => accelerationRate v.current_speed
  | Action.cruise => 0
  | Action.decelerate =>
      deccelerationRate v v.current_speed vL aL gap (v.current_speed * v.TP)

/-- Case list for `decceleration_rate` as the claim words it: an ordered set of cases,
first match wins, default `0`. -/
def specDeccelCases (v : Veh) (vF vL aL gap gap_desire : ℚ) : ℚ :=
  if v.desired_speed < vF then min ((vF - v.desired_speed) / 3) v.a_normal
  else if gap = gap_desire ∧ ¬ (vF ≤ vL) then (vF ^ 2 - vL ^ 2) / (2 * gap)
  else if gap < gap_desire ∧ ¬ (vF < vL) then aL - (25/100) * v.a_normal
  else if gap_desire < gap ∧ ¬ (vF ≤ vL) ∧ ¬ (3 * vF < gap) ∧
      ¬ (2 * vF < gap ∧ 15/2 < gap) then
    min (aL + (vF - vL) ^ 2 / (2 * gap)) v.a_max
  else 0

/-- The right lane's leader is absent, or strictly more than 200 m ahead
(gap measured modulo the road length). -/
def rightLeaderAbsentOrFar (v : Veh) (cars_right : Side) (road_length : ℚ) :
    Bool :=
  match cars_right with
  | some (none, _) => true
  | some (some cfr, _) =>
      decide (200 < pymod (cfr.position - v.position) road_length)
  | none => false

/-- The corrected description of `traditional_lane_switch`: move left when
the leader is *strictly* more than 5 m/s slower, close (`gap <
5·current_speed`) and the left switch is permitted; when the
slower-and-close condition holds but left is not permitted, stay; when it
does not hold, move right when permitted and the right leader is absent
or more than 200 m ahead; otherwise stay. -/
def specTradIntent (v car_front : Veh) (cars_left cars_right : Side)
    (road_length : ℚ) : ℤ :=
  let can_go_left := canSwitchLane v cars_left
  let can_go_right := canSwitchLane v cars_right
  let speed_difference := car_front.current_speed - v.current_speed
  let gap := pymod (car_front.position - v.position) road_length
  if speed_difference < -5 ∧ gap < v.current_speed * 5 then
    if can_go_left then 1 else 0
  else if can_go_right ∧ rightLeaderAbsentOrFar v cars_right road_length then -1
  else 0

/-- The free-flow resolution of the decision tree: compare
`current_speed` with `desired_speed`; when above it, `decceleration_rate`
falls into its overspeed case. -/
def specFreeFlow (v : Veh) : ℚ :=
  if v.current_speed < v.desired_speed then accelerationRate v.current_speed
  else if v.current_speed = v.desired_speed then 0
  else min ((v.current_speed - v.desired_speed) / 3) v.a_normal

/-- Reference (two-phase) decision pass following the spec's words: every
vehicle's decision inputs are read from the snapshot of all vehicle
states taken at the start of the pass. -/
def laneSnapPass (L dt : ℚ) (central : Bool) (ma sp : ℚ)
    (eta push : ℕ → ℚ) (lane : List Veh) : List Veh :=
  let sorted := sortLane lane
  let ms := laneMeanSpeed central sorted
  sorted.mapIdx (fun k v => vehStep L dt ms ma sp (eta k) (push k) sorted v)

/-- Reference two-phase `Track.calculate_next_state`. -/
def trackCalculateNextStateSnap (st : TrackState) (eta push : ℕ → ℕ → ℚ) :
    TrackState :=
  { st with
    lanes := st.lanes.mapIdx (fun li lane =>
      laneSnapPass st.length st.dt st.central_control st.max_accel
        st.speed_push (eta li) (push li) lane) }

/-! Section: Per-vehicle runs (for the history-list claims) -/

/-- The inputs of one full per-vehicle timestep (one
`calculate_next_state` followed by one `update_state`). -/
structure StepIn where
  gap : ℚ
  vL : ℚ
  aL : ℚ
  dt : ℚ
  ms : Option ℚ
  ma : ℚ
  sp : ℚ
  etaDraw : ℚ
  pushDraw : ℚ
  lane : ℕ
  deriving DecidableEq

/-- One full per-vehicle timestep. -/
def vehRunStep (v : Veh) (s : StepIn) : Veh :=
  updateState
    (calculateNextState v s.gap s.vL s.aL s.dt s.ms s.ma s.sp s.etaDraw s.pushDraw)
    s.dt s.lane

/-- A sequence of per-vehicle timesteps. -/
def vehRun (v : Veh) (ss : List StepIn) : Veh := ss.foldl vehRunStep v

/-! Section: Basic frame lemmas -/

theorem computeDecision_position (v : Veh) (gap vL aL : ℚ) :
    (computeDecision v gap vL aL).position = v.position := rfl

theorem computeDecision_current_speed (v : Veh) (gap vL aL : ℚ) :
    (computeDecision v gap vL aL).current_speed = v.current_speed := rfl

theorem calculateNextState_position (v : Veh) (gap vL aL dt : ℚ)
    (ms : Option ℚ) (ma sp etaD pushD : ℚ) :
    (calculateNextState v gap vL aL dt ms ma sp etaD pushD).position = v.position := by
  cases ms <;> rfl

theorem calculateNextState_current_speed (v : Veh) (gap vL aL dt : ℚ)
    (ms : Option ℚ) (ma sp etaD pushD : ℚ) :
    (calculateNextState v gap vL aL dt ms ma sp etaD pushD).current_speed
      = v.current_speed := by
  cases ms <;> rfl

theorem calculateNextState_id (v : Veh) (gap vL aL dt : ℚ)
    (ms : Option ℚ) (ma sp etaD pushD : ℚ) :
    (calculateNextState v gap vL aL dt ms ma sp etaD pushD).id = v.id := by
  cases ms <;> rfl

theorem calculateNextStateInf_position (v : Veh) (dt : ℚ) (ms : Option ℚ)
    (ma sp etaD pushD : ℚ) :
    (calculateNextStateInf v dt ms ma sp etaD pushD).position = v.position := by
  cases ms <;> rfl

theorem calculateNextStateInf_id (v : Veh) (dt : ℚ) (ms : Option ℚ)
    (ma sp etaD pushD : ℚ) :
    (calculateNextStateInf v dt ms ma sp etaD pushD).id = v.id := by
  cases ms <;> rfl

theorem updateState_current_speed (v : Veh) (dt : ℚ) (lane : ℕ) :
    (updateState v dt lane).current_speed = v.next_speed.getD 0 := rfl

/-! Section: C1: the five-branch decision tree -/

/-- C1.  `compute_decision` writes to `acceleration` exactly the value of
the action selected by the claimed five-branch tree (accelerate →
`acceleration_rate(v_F)`, cruise → `0`, decelerate →
`decceleration_rate(v_F, v_L, a_L, gap, gap_desire)`), and on
`current_speed = 25`, `leader_speed = 25`, `gap = 100`, `TP = 1.2` the
decision is accelerate with written acceleration `0.37`. -/
theorem compute_decision_five_branch_tree :
    (∀ (v : Veh) (gap vL aL : ℚ),
      (computeDecision v gap vL aL).acceleration
        = actionValue v gap vL aL (specDecisionTree v gap vL))
    ∧ specDecisionTree (mkVehicle 0 1000 25) 100 25 = Action.accelerate
    ∧ (computeDecision (mkVehicle 0 1000 25) 100 25 (37/100)).acceleration
        = 37/100 := by
  refine ⟨?_, by norm_num [specDecisionTree, mkVehicle],
    by norm_num [computeDecision, computeDecisionVal, accelerationRate, mkVehicle]⟩
  intro v gap vL aL
  show computeDecisionVal v gap vL aL = actionValue v gap vL aL (specDecisionTree v gap vL)
  simp only [computeDecisionVal, specDecisionTree]
  by_cases hA : gap < 6 * v.current_speed
  · simp only [if_pos hA]
    rcases lt_trichotomy (gap - v.current_speed * v.TP) 0 with hB | hB | hB
    · simp only [if_neg (by linarith : ¬ (0:ℚ) < gap - v.current_speed * v.TP),
        if_neg (ne_of_lt hB), if_pos hB]
      by_cases hF : v.current_speed < vL
      · simp only [if_pos hF]; rfl
      · simp only [if_neg hF]; rfl
    · simp only [if_neg (by simp [hB] : ¬ (0:ℚ) < gap - v.current_speed * v.TP),
        if_pos hB]
      by_cases hC : v.current_speed ≤ vL
      · simp only [if_pos hC]; rfl
      · simp only [if_neg hC]; rfl
    · simp only [if_pos hB]
      by_cases hC : v.current_speed ≤ vL
      · simp only [if_pos hC,
          if_pos (Or.inl hC : v.current_speed ≤ vL ∨ 3 * v.current_speed < gap)]
        rfl
      · simp only [if_neg hC]
        by_cases hD : 3 * v.current_speed < gap
        · simp only [if_pos hD,
            if_pos (Or.inr hD : v.current_speed ≤ vL ∨ 3 * v.current_speed < gap)]
          rfl
        · simp only [if_neg hD,
            if_neg (by tauto : ¬ (v.current_speed ≤ vL ∨ 3 * v.current_speed < gap))]
          by_cases hG : 2 * v.current_speed < gap ∧ 15/2 < gap
          · simp only [if_pos hG]; rfl
          · simp only [if_neg hG]; rfl
  · simp only [if_neg hA]
    rcases lt_trichotomy (v.current_speed - v.desired_speed) 0 with hE | hE | hE
    · simp only [if_pos hE, if_pos (by linarith : v.current_speed < v.desired_speed)]
      rfl
    · have hE2 : v.current_speed = v.desired_speed := by linarith
      simp only [if_neg (by simp [hE] : ¬ v.current_speed - v.desired_speed < 0),
        if_pos hE, if_neg (by rw [hE2]; exact lt_irrefl _ : ¬ v.current_speed < v.desired_speed),
        if_pos hE2]
      rfl
    · have hE2 : v.desired_speed < v.current_speed := by linarith
      simp only [if_neg (by linarith : ¬ v.current_speed - v.desired_speed < 0),
        if_neg (by linarith : ¬ v.current_speed - v.desired_speed = 0),
        if_pos hE,
        if_neg (by linarith : ¬ v.current_speed < v.desired_speed),
        if_neg (by linarith : ¬ v.current_speed = v.desired_speed)]
      rfl

/-! Section: C2: decceleration_rate as ordered cases -/

/-- C2.  `decceleration_rate` equals the claimed ordered case list
(first match wins, default `0`), and evaluates to `0` at
`(vF, vL, aL, gap, gap_desire) = (25, 25, 0.37, 100, 30)`. -/
theorem decceleration_rate_ordered_cases :
    (∀ (v : Veh) (vF vL aL gap gap_desire : ℚ),
      deccelerationRate v vF vL aL gap gap_desire
        = specDeccelCases v vF vL aL gap gap_desire)
    ∧ deccelerationRate (mkVehicle 0 1000 25) 25 25 (37/100) 100 30 = 0 := by
  refine ⟨?_, by norm_num [deccelerationRate, mkVehicle]⟩
  intro v vF vL aL gap gap_desire
  simp only [deccelerationRate, specDeccelCases, sub_neg, sub_pos, sub_eq_zero]

/-! Section: C9: calculate_next_state stages, update_state commits -/

/-- C9.  `calculate_next_state` leaves `current_speed`, `position` and the
three history lists (and every other attribute but `acceleration` and
`next_speed`) unchanged; it stages `next_speed`, which becomes visible as
`current_speed` exactly when `update_state` commits it. -/
theorem calculate_next_state_frame (v : Veh) (gap vL aL dt : ℚ)
    (ms : Option ℚ) (ma sp etaD pushD dt2 : ℚ) (lane : ℕ) :
    (calculateNextState v gap vL aL dt ms ma sp etaD pushD).current_speed
        = v.current_speed
    ∧ (calculateNextState v gap vL aL dt ms ma sp etaD pushD).position = v.position
    ∧ (calculateNextState v gap vL aL dt ms ma sp etaD pushD).speed_list
        = v.speed_list
    ∧ (calculateNextState v gap vL aL dt ms ma sp etaD pushD).position_list
        = v.position_list
    ∧ (calculateNextState v gap vL aL dt ms ma sp etaD pushD).lane_list
        = v.lane_list
    ∧ (calculateNextState v gap vL aL dt ms ma sp etaD pushD).id = v.id
    ∧ (calculateNextState v gap vL aL dt ms ma sp etaD pushD).desired_speed
        = v.desired_speed
    ∧ (calculateNextState v gap vL aL dt ms ma sp etaD pushD).max_speed
        = v.max_speed
    ∧ (calculateNextState v gap vL aL dt ms ma sp etaD pushD).length = v.length
    ∧ (calculateNextState v gap vL aL dt ms ma sp etaD pushD).a_normal
        = v.a_normal
    ∧ (calculateNextState v gap vL aL dt ms ma sp etaD pushD).a_max = v.a_max
    ∧ (calculateNextState v gap vL aL dt ms ma sp etaD pushD).b = v.b
    ∧ (calculateNextState v gap vL aL dt ms ma sp etaD pushD).TP = v.TP
    ∧ (calculateNextState v gap vL aL dt ms ma sp etaD pushD).AC = v.AC
    ∧ (calculateNextState v gap vL aL dt ms ma sp etaD pushD).next_speed.isSome
        = true
    ∧ (updateState (calculateNextState v gap vL aL dt ms ma sp etaD pushD)
          dt2 lane).current_speed
        = (calculateNextState v gap vL aL dt ms ma sp etaD pushD).next_speed.getD 0
    := by
  cases ms <;>
    exact ⟨rfl, rfl, rfl, rfl, rfl, rfl, rfl, rfl, rfl, rfl, rfl, rfl, rfl, rfl,
      rfl, rfl⟩

/-! Section: C3: speed bounds of the committed state -/

/-- Bounds for the centralized-control adjustment: clamping toward the
mean and the optional speed-push keep the staged speed in
`[0, max M m + sp]` when `ns ∈ [0, M]` and `m`, `ma`, `sp` are
nonnegative. -/
theorem clampPushBounds (ns m ma sp M : ℚ) (c : Prop) [Decidable c]
    (h0 : 0 ≤ ns) (hM : ns ≤ M) (hm : 0 ≤ m) (hma : 0 ≤ ma) (hsp : 0 ≤ sp) :
    0 ≤ (if c then ns + max (-ma) (min ma (m - ns)) + sp
          else ns + max (-ma) (min ma (m - ns)))
    ∧ (if c then ns + max (-ma) (min ma (m - ns)) + sp
        else ns + max (-ma) (min ma (m - ns))) ≤ max M m + sp := by
  have hMm1 : M ≤ max M m := le_max_left M m
  have hMm2 : m ≤ max M m := le_max_right M m
  rcases min_cases ma (m - ns) with ⟨hmin, hmin2⟩ | ⟨hmin, hmin2⟩ <;>
    rcases max_cases (-ma) (min ma (m - ns)) with ⟨hmx, hmx2⟩ | ⟨hmx, hmx2⟩ <;>
    rw [hmx] <;> split_ifs <;> constructor <;> linarith [hmin ▸ hmx2]

/-- C3 (corrected).  Without centralized control
(`mean_speed = none`, noise draw in `[0, 1]`, nonnegative `b` and
`max_speed`) the committed speed stays in `[0, max_speed]`.  With
centralized control (`mean_speed = some m`, `m, max_accel, speed_push ≥ 0`)
the committed speed stays nonnegative but is only bounded by
`max max_speed m + speed_push`: the mean-speed adjustment and the
speed-push are applied after the `max_speed` clamp. -/
theorem calculate_next_state_commit_bounds
    (v : Veh) (gap vL aL dt ma sp etaD pushD dt2 : ℚ) (lane : ℕ)
    (hb : 0 ≤ v.b) (heta : 0 ≤ etaD) (hmax : 0 ≤ v.max_speed) :
    (0 ≤ (updateState (calculateNextState v gap vL aL dt none ma sp etaD pushD)
            dt2 lane).current_speed
      ∧ (updateState (calculateNextState v gap vL aL dt none ma sp etaD pushD)
            dt2 lane).current_speed ≤ v.max_speed)
    ∧ (∀ m : ℚ, 0 ≤ m → 0 ≤ ma → 0 ≤ sp →
        0 ≤ (updateState (calculateNextState v gap vL aL dt (some m) ma sp etaD pushD)
              dt2 lane).current_speed
        ∧ (updateState (calculateNextState v gap vL aL dt (some m) ma sp etaD pushD)
              dt2 lane).current_speed ≤ max v.max_speed m + sp) := by
  constructor
  · have heq : (updateState (calculateNextState v gap vL aL dt none ma sp etaD pushD)
        dt2 lane).current_speed
        = max 0 (min (min v.max_speed
            (v.current_speed + computeDecisionVal v gap vL aL * dt))
            (computeSafeSpeed (computeDecision v gap vL aL) gap vL) - v.b * etaD) := rfl
    rw [heq]
    refine ⟨le_max_left _ _, max_le hmax ?_⟩
    have h1 : min (min v.max_speed
          (v.current_speed + computeDecisionVal v gap vL aL * dt))
          (computeSafeSpeed (computeDecision v gap vL aL) gap vL) ≤ v.max_speed :=
      le_trans (min_le_left _ _) (min_le_left _ _)
    have h2 : 0 ≤ v.b * etaD := mul_nonneg hb heta
    linarith
  · intro m hm hma hsp
    have heq : (updateState (calculateNextState v gap vL aL dt (some m) ma sp etaD pushD)
        dt2 lane).current_speed
        = (if 0 < gap + 3 * (vL -
              (max 0 (min (min v.max_speed
                  (v.current_speed + computeDecisionVal v gap vL aL * dt))
                  (computeSafeSpeed (computeDecision v gap vL aL) gap vL) - v.b * (1/2))
                + max (-ma) (min ma (m -
                    max 0 (min (min v.max_speed
                      (v.current_speed + computeDecisionVal v gap vL aL * dt))
                      (computeSafeSpeed (computeDecision v gap vL aL) gap vL)
                      - v.b * (1/2))))))
              ∧ pushD < v.AC
          then max 0 (min (min v.max_speed
                  (v.current_speed + computeDecisionVal v gap vL aL * dt))
                  (computeSafeSpeed (computeDecision v gap vL aL) gap vL) - v.b * (1/2))
                + max (-ma) (min ma (m -
                    max 0 (min (min v.max_speed
                      (v.current_speed + computeDecisionVal v gap vL aL * dt))
                      (computeSafeSpeed (computeDecision v gap vL aL) gap vL)
                      - v.b * (1/2)))) + sp
          else max 0 (min (min v.max_speed
                  (v.current_speed + computeDecisionVal v gap vL aL * dt))
                  (computeSafeSpeed (computeDecision v gap vL aL) gap vL) - v.b * (1/2))
                + max (-ma) (min ma (m -
                    max 0 (min (min v.max_speed
                      (v.current_speed + computeDecisionVal v gap vL aL * dt))
                      (computeSafeSpeed (computeDecision v gap vL aL) gap vL)
                      - v.b * (1/2))))) := rfl
    rw [heq]
    have h0 : 0 ≤ max 0 (min (min v.max_speed
        (v.current_speed + computeDecisionVal v gap vL aL * dt))
        (computeSafeSpeed (computeDecision v gap vL aL) gap vL) - v.b * (1/2)) :=
      le_max_left _ _
    have hMle : max 0 (min (min v.max_speed
        (v.current_speed + computeDecisionVal v gap vL aL * dt))
        (computeSafeSpeed (computeDecision v gap vL aL) gap vL) - v.b * (1/2))
        ≤ v.max_speed := by
      refine max_le hmax ?_
      have h1 : min (min v.max_speed
            (v.current_speed + computeDecisionVal v gap vL aL * dt))
            (computeSafeSpeed (computeDecision v gap vL aL) gap vL) ≤ v.max_speed :=
        le_trans (min_le_left _ _) (min_le_left _ _)
      have h2 : 0 ≤ v.b * (1/2 : ℚ) := mul_nonneg hb (by norm_num)
      linarith
    exact clampPushBounds _ m ma sp v.max_speed _ h0 hMle hm hma hsp

/-- C3, counterexample.  A vehicle at `max_speed = 35` under centralized
control with lane mean `35`: the clamp adjustment (+0.1) and the
speed-push (+0.5, taken since the projected-collision guard passes and
the draw `0 < AC`) commit `current_speed = 35.5 > max_speed`. -/
theorem update_state_exceeds_max_speed_cex :
    (updateState (calculateNextState (mkVehicle 0 0 35) 1000 35 0 1 (some 35) 1
        (1/2) 0 0) 1 0).current_speed = 71/2
    ∧ (mkVehicle 0 0 35).max_speed = 35 ∧ (35 : ℚ) < 71/2 := by
  refine ⟨?_, by norm_num [mkVehicle], by norm_num⟩
  norm_num [updateState, calculateNextState, computeDecision, computeDecisionVal,
    deccelerationRate, accelerationRate, computeSafeSpeed, mkVehicle,
    min_def, max_def]

/-- C3, witness for the amended bounds. -/
theorem calculate_next_state_commit_bounds_witness :
    (0 : ℚ) ≤ (mkVehicle 0 0 20).b ∧ (0 : ℚ) ≤ 1/3
    ∧ (0 : ℚ) ≤ (mkVehicle 0 0 20).max_speed
    ∧ (0 ≤ (updateState (calculateNextState (mkVehicle 0 0 20) 50 10 0 1 none 1
          (1/2) (1/3) 0) 1 2).current_speed
      ∧ (updateState (calculateNextState (mkVehicle 0 0 20) 50 10 0 1 none 1
          (1/2) (1/3) 0) 1 2).current_speed ≤ (mkVehicle 0 0 20).max_speed) := by
  refine ⟨by norm_num [mkVehicle], by norm_num, by norm_num [mkVehicle], ?_⟩
  exact (calculate_next_state_commit_bounds (mkVehicle 0 0 20) 50 10 0 1 1 (1/2)
    (1/3) 0 1 2 (by norm_num [mkVehicle]) (by norm_num)
    (by norm_num [mkVehicle])).1

/-! Section: C8: a solitary vehicle leads itself and free-flows -/

/-- C8.  In a lane holding exactly one vehicle, `car_in_front` at that
vehicle's position returns the vehicle itself; the decision pass then
takes the self-leader branch, invoking `calculate_next_state` with
infinite gap, leader speed and leader acceleration; and on those inputs
the decision tree resolves to the free-flow branch, the comparison of
`current_speed` against `desired_speed`. -/
theorem single_vehicle_self_leader_free_flow :
    (∀ v : Veh, carInFront [v] v.position = some v)
    ∧ (∀ (L dt : ℚ) (ms : Option ℚ) (ma sp : ℚ) (eta push : ℕ → ℚ) (v : Veh),
        laneSeqGo L dt ms ma sp eta push [] [v] 0
          = [calculateNextStateInf v dt ms ma sp (eta 0) (push 0)])
    ∧ (∀ v : Veh, computeDecisionE v ⊤ ⊤ ⊤ = ((specFreeFlow v : ℚ) : WithTop ℚ)) := by
  have h1 : ∀ v : Veh, carInFront [v] v.position = some v := by
    intro v
    simp [carInFront, List.find?_cons, lt_irrefl]
  refine ⟨h1, ?_, ?_⟩
  · intro L dt ms ma sp eta push v
    simp only [laneSeqGo, List.nil_append, vehStep, h1, ne_eq, not_true_eq_false,
      if_false]
  · intro v
    simp only [computeDecisionE, specFreeFlow, if_neg (not_top_lt)]
    rcases lt_trichotomy (v.current_speed - v.desired_speed) 0 with hE | hE | hE
    · rw [if_pos hE, if_pos (by linarith : v.current_speed < v.desired_speed)]
    · have hE2 : v.current_speed = v.desired_speed := by linarith
      rw [if_neg (by simp [hE] : ¬ v.current_speed - v.desired_speed < 0),
        if_pos hE,
        if_neg (by rw [hE2]; exact lt_irrefl _ : ¬ v.current_speed < v.desired_speed),
        if_pos hE2, WithTop.coe_zero]
    · have hE2 : v.desired_speed < v.current_speed := by linarith
      rw [if_neg (by linarith : ¬ v.current_speed - v.desired_speed < 0),
        if_neg (by linarith : ¬ v.current_speed - v.desired_speed = 0),
        if_pos hE,
        if_neg (by linarith : ¬ v.current_speed < v.desired_speed),
        if_neg (by linarith : ¬ v.current_speed = v.desired_speed)]
      rw [deccelerationRateE, if_pos hE2]

/-! Section: C6: switch_lane error behaviour -/

/-- C6 (corrected).  For `count ≠ 0`: an out-of-bounds destination always
errors; with an in-bounds destination, an *empty* source lane is silently
ignored (`ok`, state unchanged — the code's `if len(lane) == 0: return`),
a non-empty source lane with no vehicle at exactly `position` errors, and
a found vehicle (first position match) is removed from the source lane
and appended to the destination lane. -/
theorem switch_lane_error_behavior (st : TrackState) (lane : ℕ) (pos : ℚ)
    (count : ℤ) (hc : count ≠ 0) :
    (¬ (0 ≤ (lane : ℤ) + count ∧ (lane : ℤ) + count < st.lanes.length) →
      switchLane st lane pos count
        = Except.error "AssertionError: new lane out of bounds")
    ∧ ((0 ≤ (lane : ℤ) + count ∧ (lane : ℤ) + count < st.lanes.length) →
      ∀ src, st.lanes.get? lane = some src →
        (src = [] → switchLane st lane pos count = Except.ok st)
        ∧ (src ≠ [] → src.find? (fun w => w.position = pos) = none →
            switchLane st lane pos count
              = Except.error "ValueError: no car at position")
        ∧ (∀ veh, src.find? (fun w => w.position = pos) = some veh →
            switchLane st lane pos count = Except.ok { st with lanes :=
              ((st.lanes.set lane (src.eraseP (fun w => w.position = pos))).set
                ((lane : ℤ) + count).toNat
                ((((st.lanes.set lane (src.eraseP (fun w => w.position = pos))).get?
                    ((lane : ℤ) + count).toNat).getD []) ++ [veh])) })) := by
  constructor
  · intro hnb
    rw [switchLane, if_pos hnb]
  · intro hb src hsrc
    refine ⟨?_, ?_, ?_⟩
    · intro hempty
      rw [switchLane, if_neg (not_not_intro hb), if_neg hc, hsrc]
      simp [hempty]
    · intro hne hfind
      rw [switchLane, if_neg (not_not_intro hb), if_neg hc, hsrc]
      simp [hne, hfind]
    · intro veh hfind
      have hne : src ≠ [] := by
        rintro rfl
        simp [List.find?] at hfind
      rw [switchLane, if_neg (not_not_intro hb), if_neg hc, hsrc]
      simp [hne, hfind]

/-- C6, counterexample.  A two-lane track with an empty lane 0: the
request to move the (nonexistent) vehicle at position `5` one lane up is
silently ignored — `switch_lane` returns successfully with the lanes
unchanged, where the claim demands an explicit error. -/
theorem switch_lane_empty_lane_silent_cex :
    (1 : ℤ) ≠ 0
    ∧ (TrackState.mk [[], [mkVehicle 7 100 20]] 1000 1 false 1 (1/2)).lanes.get? 0
        = some []
    ∧ switchLane (TrackState.mk [[], [mkVehicle 7 100 20]] 1000 1 false 1 (1/2))
        0 5 1
      = Except.ok (TrackState.mk [[], [mkVehicle 7 100 20]] 1000 1 false 1 (1/2)) := by
  refine ⟨by norm_num, by simp, ?_⟩
  norm_num [switchLane]

/-- C6, witness for the amended behaviour: the assertion fires on an
out-of-bounds destination, and a found vehicle is moved. -/
theorem switch_lane_error_behavior_witness :
    switchLane (TrackState.mk [[mkVehicle 7 100 20], []] 1000 1 false 1 (1/2))
        0 100 5
      = Except.error "AssertionError: new lane out of bounds"
    ∧ switchLane (TrackState.mk [[mkVehicle 7 100 20], []] 1000 1 false 1 (1/2))
        0 100 1
      = Except.ok (TrackState.mk [[], [mkVehicle 7 100 20]] 1000 1 false 1 (1/2)) := by
  constructor
  · exact (switch_lane_error_behavior
      (TrackState.mk [[mkVehicle 7 100 20], []] 1000 1 false 1 (1/2)) 0 100 5
      (by norm_num)).1 (by norm_num)
  · have h := ((switch_lane_error_behavior
      (TrackState.mk [[mkVehicle 7 100 20], []] 1000 1 false 1 (1/2)) 0 100 1
      (by norm_num)).2 (by norm_num) [mkVehicle 7 100 20] (by simp)).2.2
      (mkVehicle 7 100 20) (by norm_num [List.find?, mkVehicle])
    rw [h]
    norm_num [List.eraseP, mkVehicle]

/-! Section: C7: traditional_lane_switch intent resolution -/

/-- C7 (corrected).  Whenever the `can_switch_lanes` assertion passes,
`traditional_lane_switch` returns exactly: move-left when the leader is
*strictly* more than 5 m/s slower, the gap is below `5·current_speed`
and left is permitted; stay when that slower-and-close condition holds
but left is not permitted; otherwise move-right when right is permitted
and the right leader is absent or strictly more than 200 m ahead;
otherwise stay. -/
theorem traditional_lane_switch_characterization (v cf : Veh)
    (l r : Side) (L : ℚ) (h : sideEq l r = false) :
    traditionalLaneSwitch v cf l r L = Except.ok (specTradIntent v cf l r L) := by
  unfold traditionalLaneSwitch canSwitchLanes specTradIntent
  rw [if_neg (by simp [h])]
  simp only [Except.map]
  cases hcl : canSwitchLane v l <;> cases hcr : canSwitchLane v r <;>
    simp only [hcl, hcr] <;>
    by_cases htr : cf.current_speed - v.current_speed < -5
      ∧ pymod (cf.position - v.position) L < v.current_speed * 5 <;>
    simp only [htr, if_pos, if_neg, if_true, if_false, and_self, and_true,
      true_and, false_and, and_false, not_false_eq_true, Bool.false_eq_true,
      if_false] <;>
    simp [rightLeaderAbsentOrFar] <;>
    rcases r with _ | ⟨_ | fr, bk⟩ <;>
    simp_all [canSwitchLane]

/-- C7, counterexample.  The leader is *exactly* 5 m/s slower
(difference `-5`), close (gap `20 < 50`), and the left switch is
permitted (empty left lane, no right lane): the claim's trigger ("at
least 5 m/s slower") demands move-left, but the code's strict `< -5`
does not fire and, with no right lane, it stays (`0`). -/
theorem traditional_lane_switch_boundary_cex :
    (mkVehicle 1 20 5).current_speed - (mkVehicle 0 0 10).current_speed = -5
    ∧ pymod ((mkVehicle 1 20 5).position - (mkVehicle 0 0 10).position) 1000
        < (mkVehicle 0 0 10).current_speed * 5
    ∧ canSwitchLane (mkVehicle 0 0 10) (some (none, none)) = true
    ∧ traditionalLaneSwitch (mkVehicle 0 0 10) (mkVehicle 1 20 5)
        (some (none, none)) none 1000 = Except.ok 0 := by
  refine ⟨by norm_num [mkVehicle], ?_, by simp [canSwitchLane], ?_⟩
  · norm_num [pymod, mkVehicle]
  · norm_num [traditionalLaneSwitch, canSwitchLanes, sideEq, canSwitchLane,
      pymod, mkVehicle, Except.map]

/-- C7, witness for the characterization, at the same concrete input. -/
theorem traditional_lane_switch_characterization_witness :
    sideEq (some (none, none)) none = false
    ∧ traditionalLaneSwitch (mkVehicle 0 0 10) (mkVehicle 1 20 5)
        (some (none, none)) none 1000
      = Except.ok (specTradIntent (mkVehicle 0 0 10) (mkVehicle 1 20 5)
          (some (none, none)) none 1000) :=
  ⟨by simp [sideEq],
    traditional_lane_switch_characterization (mkVehicle 0 0 10) (mkVehicle 1 20 5)
      (some (none, none)) none 1000 (by simp [sideEq])⟩

/-! Section: C4: lane_switches interleaving -/


/-- One iteration of the `lane_switches` inner loop, given its pieces. -/
theorem laneSwitchesInner_step (st st2 : TrackState) (i idx fuel : ℕ)
    (lane : List Veh) (veh front : Veh) (count : ℤ)
    (hlane : (st.lanes.get? i).getD [] = lane)
    (hidx : lane.get? idx = some veh)
    (hcf : carInFront lane veh.position = some front)
    (hdec : laneSwitch veh front (closestCarsSides st i veh.position).1
      (closestCarsSides st i veh.position).2 st.length = Except.ok count)
    (hsw : switchLane st i veh.position count = Except.ok st2) :
    laneSwitchesInner st i idx (fuel + 1) = laneSwitchesInner st2 i (idx + 1) fuel := by
  obtain ⟨h, hget⟩ := List.get?_eq_some.mp hidx
  rw [laneSwitchesInner, hlane]
  rw [dif_pos h, hget]
  simp only [hcf, hdec, hsw]

/-- Termination of the `lane_switches` inner loop once the index passes
the (current) end of the lane. -/
theorem laneSwitchesInner_done (st : TrackState) (i idx fuel : ℕ)
    (lane : List Veh)
    (hlane : (st.lanes.get? i).getD [] = lane)
    (hidx : lane.length ≤ idx) :
    laneSwitchesInner st i idx (fuel + 1) = Except.ok st := by
  rw [laneSwitchesInner, hlane, dif_neg (not_lt.mpr hidx)]

/-- C4 failing input, vehicle in lane 0: fast follower. -/
def c4A : Veh := mkVehicle 0 100 30

/-- C4 failing input: slow leader of `c4A` in lane 0. -/
def c4B : Veh := mkVehicle 1 120 10

/-- C4 failing input: slow vehicle in lane 1. -/
def c4C : Veh := mkVehicle 2 150 10

/-- The C4 failing input: three lanes, `c4A` (fast) behind `c4B` (slow,
close) in lane 0, `c4C` (slow, close ahead of `c4A`) in lane 1, lane 2
empty. -/
def c4Start : TrackState :=
  TrackState.mk [[c4A, c4B], [c4C], []] 1000 1 false 1 (1/2)

/-- State after `c4A`'s first move (decided from lane 0, applied at once). -/
def c4Mid : TrackState :=
  TrackState.mk [[c4B], [c4C, c4A], []] 1000 1 false 1 (1/2)

/-- State `c4Mid` with lane 1 sorted, as the outer loop does on reaching it. -/
def c4Mid2 : TrackState :=
  TrackState.mk [[c4B], [c4A, c4C], []] 1000 1 false 1 (1/2)

/-- Final state of the C4 run: `c4A` has been moved twice, into lane 2. -/
def c4End : TrackState :=
  TrackState.mk [[c4B], [c4C], [c4A]] 1000 1 false 1 (1/2)

theorem c4_lane0 : laneSwitchesInner c4Start 0 0 (3 + 1) = Except.ok c4Mid := by
  have hcf : carInFront [c4A, c4B] c4A.position = some c4B := by
    norm_num [carInFront, List.find?, c4A, c4B, mkVehicle]
  have hdec : laneSwitch c4A c4B (closestCarsSides c4Start 0 c4A.position).1
      (closestCarsSides c4Start 0 c4A.position).2 c4Start.length = Except.ok 1 := by
    norm_num [laneSwitch, traditionalLaneSwitch, canSwitchLanes, canSwitchLane,
      sideEq, closestCarsSides, carInFront, carInBack, List.find?, pymod,
      Except.map, c4Start, c4A, c4B, c4C, mkVehicle]
  have hsw : switchLane c4Start 0 c4A.position 1 = Except.ok c4Mid := by
    norm_num [switchLane, List.find?, List.eraseP, c4Start, c4Mid, c4A, c4B, c4C,
      mkVehicle, List.cons_ne_nil, Int.toNat]
  rw [laneSwitchesInner_step c4Start c4Mid 0 0 3 [c4A, c4B] c4A c4B 1 rfl rfl
    hcf hdec hsw]
  rw [show (3 : ℕ) = 2 + 1 from rfl]
  exact laneSwitchesInner_done c4Mid 0 (0 + 1) 2 [c4B] rfl (by norm_num)

theorem c4_lane1 : laneSwitchesInner c4Mid2 1 0 (3 + 1) = Except.ok c4End := by
  have hcf : carInFront [c4A, c4C] c4A.position = some c4C := by
    norm_num [carInFront, List.find?, c4A, c4C, mkVehicle]
  have hdec : laneSwitch c4A c4C (closestCarsSides c4Mid2 1 c4A.position).1
      (closestCarsSides c4Mid2 1 c4A.position).2 c4Mid2.length = Except.ok 1 := by
    norm_num [laneSwitch, traditionalLaneSwitch, canSwitchLanes, canSwitchLane,
      sideEq, closestCarsSides, carInFront, carInBack, List.find?, pymod,
      Except.map, c4Mid2, c4A, c4B, c4C, mkVehicle]
  have hsw : switchLane c4Mid2 1 c4A.position 1 = Except.ok c4End := by
    norm_num [switchLane, List.find?, List.eraseP, c4Mid2, c4End, c4A, c4B, c4C,
      mkVehicle, List.cons_ne_nil, Int.toNat]
  rw [laneSwitchesInner_step c4Mid2 c4End 1 0 3 [c4A, c4C] c4A c4C 1 rfl rfl
    hcf hdec hsw]
  rw [show (3 : ℕ) = 2 + 1 from rfl]
  exact laneSwitchesInner_done c4End 1 (0 + 1) 2 [c4C] rfl (by norm_num)

theorem c4_lane2 : laneSwitchesInner c4End 2 0 (3 + 1) = Except.ok c4End := by
  have hcf : carInFront [c4A] c4A.position = some c4A := by
    norm_num [carInFront, List.find?, c4A, mkVehicle]
  have hdec : laneSwitch c4A c4A (closestCarsSides c4End 2 c4A.position).1
      (closestCarsSides c4End 2 c4A.position).2 c4End.length = Except.ok 0 := by
    norm_num [laneSwitch, traditionalLaneSwitch, canSwitchLanes, canSwitchLane,
      sideEq, closestCarsSides, carInFront, carInBack, List.find?, pymod,
      Except.map, c4End, c4A, c4B, c4C, mkVehicle]
  have hsw : switchLane c4End 2 c4A.position 0 = Except.ok c4End := by
    norm_num [switchLane, c4End]
  rw [laneSwitchesInner_step c4End c4End 2 0 3 [c4A] c4A c4A 0 rfl rfl
    hcf hdec hsw]
  rw [show (3 : ℕ) = 2 + 1 from rfl]
  exact laneSwitchesInner_done c4End 2 (0 + 1) 2 [c4A] rfl (by norm_num)

/-- C4.  Evaluating `Track.lane_switches` on the failing input: vehicle
`c4A` (id 0) starts in lane 0 and finishes in lane 2 after a single
call, so it was decided and moved twice in one pass (each applied switch
moves exactly one lane); its first move was applied before the remaining
vehicles' decisions, and the mid-iteration removal made the loop skip
`c4B`'s decision entirely. -/
theorem lane_switches_double_move_eval :
    laneSwitches c4Start = Except.ok c4End
    ∧ c4Start.lanes.get? 0 = some [c4A, c4B]
    ∧ c4End.lanes.get? 2 = some [c4A] := by
  have hl0 : c4Start.lanes.set 0 (sortLane ((c4Start.lanes.get? 0).getD []))
      = c4Start.lanes := by
    norm_num [c4Start, sortLane, List.insertionSort, List.orderedInsert,
      c4A, c4B, mkVehicle]
  have hf0 : (List.map List.length c4Start.lanes).sum = 3 := by
    norm_num [c4Start]
  have h0 : laneSwitchesLane c4Start 0 = Except.ok c4Mid := by
    unfold laneSwitchesLane
    simp only []
    rw [hl0]
    show laneSwitchesInner c4Start 0 0 ((List.map List.length c4Start.lanes).sum + 1)
      = Except.ok c4Mid
    rw [hf0]
    exact c4_lane0
  have hl1 : c4Mid.lanes.set 1 (sortLane ((c4Mid.lanes.get? 1).getD []))
      = c4Mid2.lanes := by
    norm_num [c4Mid, c4Mid2, sortLane, List.insertionSort, List.orderedInsert,
      c4A, c4C, mkVehicle]
  have hf1 : (List.map List.length c4Mid2.lanes).sum = 3 := by
    norm_num [c4Mid2]
  have h1 : laneSwitchesLane c4Mid 1 = Except.ok c4End := by
    unfold laneSwitchesLane
    simp only []
    rw [hl1]
    show laneSwitchesInner c4Mid2 1 0 ((List.map List.length c4Mid2.lanes).sum + 1)
      = Except.ok c4End
    rw [hf1]
    exact c4_lane1
  have hl2 : c4End.lanes.set 2 (sortLane ((c4End.lanes.get? 2).getD []))
      = c4End.lanes := by
    norm_num [c4End, sortLane, List.insertionSort, List.orderedInsert,
      c4A, mkVehicle]
  have hf2 : (List.map List.length c4End.lanes).sum = 3 := by
    norm_num [c4End]
  have h2 : laneSwitchesLane c4End 2 = Except.ok c4End := by
    unfold laneSwitchesLane
    simp only []
    rw [hl2]
    show laneSwitchesInner c4End 2 0 ((List.map List.length c4End.lanes).sum + 1)
      = Except.ok c4End
    rw [hf2]
    exact c4_lane2
  refine ⟨?_, rfl, rfl⟩
  unfold laneSwitches
  rw [show c4Start.lanes.length = 3 from rfl,
    show List.range 3 = [0, 1, 2] from rfl]
  rw [List.foldlM_cons, h0]
  show List.foldlM laneSwitchesLane c4Mid [1, 2] = Except.ok c4End
  rw [List.foldlM_cons, h1]
  show List.foldlM laneSwitchesLane c4End [2] = Except.ok c4End
  rw [List.foldlM_cons, h2]
  show List.foldlM laneSwitchesLane c4End [] = Except.ok c4End
  rw [List.foldlM_nil]
  rfl



/-! Section: C5: the decision pass against its two-phase reference -/

theorem vehStep_position (L dt : ℚ) (ms : Option ℚ) (ma sp e p : ℚ)
    (cur : List Veh) (v : Veh) :
    (vehStep L dt ms ma sp e p cur v).position = v.position := by
  unfold vehStep
  rcases carInFront cur v.position with _ | leader
  · rfl
  · dsimp only
    split_ifs
    · exact calculateNextState_position _ _ _ _ _ _ _ _ _ _
    · exact calculateNextStateInf_position _ _ _ _ _ _ _

theorem vehStep_id (L dt : ℚ) (ms : Option ℚ) (ma sp e p : ℚ)
    (cur : List Veh) (v : Veh) :
    (vehStep L dt ms ma sp e p cur v).id = v.id := by
  unfold vehStep
  rcases carInFront cur v.position with _ | leader
  · rfl
  · dsimp only
    split_ifs
    · exact calculateNextState_id _ _ _ _ _ _ _ _ _ _
    · exact calculateNextStateInf_id _ _ _ _ _ _ _

theorem pairwise_pos_of_map_eq {l1 l2 : List Veh}
    (h : l1.map Veh.position = l2.map Veh.position)
    (hp : List.Pairwise (fun a b : Veh => a.position < b.position) l1) :
    List.Pairwise (fun a b : Veh => a.position < b.position) l2 := by
  have h1 : List.Pairwise (fun a b : ℚ => a < b) (l1.map Veh.position) :=
    List.pairwise_map.mpr hp
  rw [h] at h1
  exact List.pairwise_map.mp h1

/-- Vehicles at distinct indices of a lane with no duplicate ids have
distinct ids (the model of Python object identity). -/
theorem id_ne_of_get? (lane : List Veh) (i j : ℕ) (pv pw : Veh)
    (hid : (lane.map Veh.id).Nodup) (hi : lane.get? i = some pv)
    (hj : lane.get? j = some pw) (hij : i ≠ j) : pv.id ≠ pw.id := by
  intro he
  apply hij
  have hilen : i < lane.length := (List.get?_eq_some.mp hi).1
  apply List.get?_inj (by simpa using hilen) hid
  rw [List.get?_map, List.get?_map, hi, hj]
  simp [he]

/-- In a strictly position-sorted lane, the first vehicle strictly ahead
of the vehicle at index `i` is the vehicle at index `i + 1`. -/
theorem find?_sorted_succ :
    ∀ (lane : List Veh) (i : ℕ) (pv pw : Veh),
    List.Pairwise (fun a b : Veh => a.position < b.position) lane →
    lane.get? i = some pv → lane.get? (i + 1) = some pw →
    lane.find? (fun w => pv.position < w.position) = some pw := by
  intro lane
  induction lane with
  | nil => intro i pv pw _ hv _; simp at hv
  | cons a rest ih =>
    intro i pv pw hp hv hw
    rcases List.pairwise_cons.mp hp with ⟨ha, hrest⟩
    cases i with
    | zero =>
      rw [List.get?_cons_zero, Option.some_inj] at hv
      subst hv
      rcases rest with _ | ⟨b, rest2⟩
      · simp at hw
      · have hb : b = pw := by simpa using hw
        subst hb
        have hab : a.position < b.position := ha b (List.mem_cons_self b rest2)
        rw [List.find?_cons_of_neg _ (by simp),
          List.find?_cons_of_pos _ (by simpa using hab)]
    | succ j =>
      have hmem : pv ∈ rest := List.get?_mem hv
      have hav : a.position < pv.position := ha pv hmem
      rw [List.find?_cons_of_neg _ (by simp [not_lt.mpr (le_of_lt hav)])]
      exact ih j pv pw hrest hv hw

theorem carInFront_sorted (lane : List Veh) (i : ℕ) (pv pw : Veh)
    (hp : List.Pairwise (fun a b : Veh => a.position < b.position) lane)
    (hv : lane.get? i = some pv) (hw : lane.get? (i + 1) = some pw) :
    carInFront lane pv.position = some pw := by
  have hfind := find?_sorted_succ lane i pv pw hp hv hw
  rcases lane with _ | ⟨a, rest⟩
  · simp at hv
  · rw [carInFront, hfind]
    rfl

/-- The decision-pass loop only appends to its processed prefix. -/
theorem laneSeqGo_append (L dt : ℚ) (ms : Option ℚ) (ma sp : ℚ)
    (eta push : ℕ → ℚ) :
    ∀ (todo pre : List Veh) (k : ℕ),
    ∃ tl, laneSeqGo L dt ms ma sp eta push pre todo k = pre ++ tl := by
  intro todo
  induction todo with
  | nil => intro pre k; exact ⟨[], by simp [laneSeqGo]⟩
  | cons v rest ih =>
    intro pre k
    obtain ⟨tl, htl⟩ := ih (pre ++ [vehStep L dt ms ma sp (eta k) (push k)
      (pre ++ v :: rest) v]) (k + 1)
    refine ⟨vehStep L dt ms ma sp (eta k) (push k) (pre ++ v :: rest) v :: tl, ?_⟩
    simp only [laneSeqGo]
    rw [htl, List.append_assoc]
    rfl

/-- Every non-final vehicle of a strictly sorted, duplicate-free lane is
stepped by the sequential decision pass against the *original* state of
its leader, the next vehicle by position (processed only later). -/
theorem laneSeqGo_get?_sorted (L dt : ℚ) (ms : Option ℚ) (ma sp : ℚ)
    (eta push : ℕ → ℚ) :
    ∀ (todo pre : List Veh) (k j : ℕ) (pv pw : Veh),
    List.Pairwise (fun a b : Veh => a.position < b.position) (pre ++ todo) →
    ((pre ++ todo).map Veh.id).Nodup →
    todo.get? j = some pv → todo.get? (j + 1) = some pw →
    (laneSeqGo L dt ms ma sp eta push pre todo k).get? (pre.length + j)
      = some (vehPairStep L dt ms ma sp (eta (k + j)) (push (k + j)) pv pw) := by
  intro todo
  induction todo with
  | nil => intro pre k j pv pw _ _ hj _; simp at hj
  | cons v rest ih =>
    intro pre k j pv pw hp hid hj hj1
    have hgo : laneSeqGo L dt ms ma sp eta push pre (v :: rest) k
        = laneSeqGo L dt ms ma sp eta push
            (pre ++ [vehStep L dt ms ma sp (eta k) (push k) (pre ++ v :: rest) v])
            rest (k + 1) := by
      simp only [laneSeqGo]
    rw [hgo]
    cases j with
    | zero =>
      rw [List.get?_cons_zero, Option.some_inj] at hj
      subst hj
      rw [List.get?_cons_succ] at hj1
      have hvpre : (pre ++ v :: rest).get? pre.length = some v := by
        rw [List.get?_append_right (le_refl _), Nat.sub_self, List.get?_cons_zero]
      have hwpre : (pre ++ v :: rest).get? (pre.length + 1) = some pw := by
        rw [List.get?_append_right (Nat.le_add_right _ _), Nat.add_sub_cancel_left,
          List.get?_cons_succ]
        exact hj1
      have hcf : carInFront (pre ++ v :: rest) v.position = some pw :=
        carInFront_sorted (pre ++ v :: rest) pre.length v pw hp hvpre hwpre
      have hne : pw.id ≠ v.id :=
        (id_ne_of_get? (pre ++ v :: rest) pre.length (pre.length + 1) v pw hid
          hvpre hwpre (by omega)).symm
      have hstep : vehStep L dt ms ma sp (eta k) (push k) (pre ++ v :: rest) v
          = vehPairStep L dt ms ma sp (eta k) (push k) v pw := by
        unfold vehStep
        rw [hcf]
        simp only [hne, ne_eq, not_false_eq_true, if_true]
      obtain ⟨tl, htl⟩ := laneSeqGo_append L dt ms ma sp eta push rest
        (pre ++ [vehStep L dt ms ma sp (eta k) (push k) (pre ++ v :: rest) v])
        (k + 1)
      rw [htl, Nat.add_zero, Nat.add_zero]
      rw [List.get?_append (by simp)]
      rw [hstep, List.get?_concat_length]
    | succ jj =>
      rw [List.get?_cons_succ] at hj hj1
      have hmapPos : ((pre ++ [vehStep L dt ms ma sp (eta k) (push k)
            (pre ++ v :: rest) v]) ++ rest).map Veh.position
          = (pre ++ v :: rest).map Veh.position := by
        simp [vehStep_position]
      have hmapId : ((pre ++ [vehStep L dt ms ma sp (eta k) (push k)
            (pre ++ v :: rest) v]) ++ rest).map Veh.id
          = (pre ++ v :: rest).map Veh.id := by
        simp [vehStep_id]
      have hp' := pairwise_pos_of_map_eq hmapPos.symm hp
      have hid' : (((pre ++ [vehStep L dt ms ma sp (eta k) (push k)
          (pre ++ v :: rest) v]) ++ rest).map Veh.id).Nodup := by
        rw [hmapId]; exact hid
      have H := ih (pre ++ [vehStep L dt ms ma sp (eta k) (push k)
        (pre ++ v :: rest) v]) (k + 1) jj pv pw hp' hid' hj hj1
      have e1 : (pre ++ [vehStep L dt ms ma sp (eta k) (push k)
          (pre ++ v :: rest) v]).length + jj = pre.length + (jj + 1) := by
        simp [List.length_append]
        omega
      have e2 : k + 1 + jj = k + (jj + 1) := by omega
      rw [e1, e2] at H
      exact H

theorem mapIdx_get? {α β : Type _} :
    ∀ (l : List α) (f : ℕ → α → β) (i : ℕ),
    (l.mapIdx f).get? i = (l.get? i).map (f i) := by
  intro l
  induction l with
  | nil => intro f i; simp
  | cons a rest ih =>
    intro f i
    rw [List.mapIdx_cons]
    cases i with
    | zero => simp
    | succ j =>
      rw [List.get?_cons_succ, List.get?_cons_succ, ih]

/-- Every non-final vehicle of the snapshot (two-phase) pass is stepped
against the same leader state. -/
theorem laneSnap_get?_sorted (L dt : ℚ) (ms : Option ℚ) (ma sp : ℚ)
    (eta push : ℕ → ℚ) (sorted : List Veh) (j : ℕ) (pv pw : Veh)
    (hp : List.Pairwise (fun a b : Veh => a.position < b.position) sorted)
    (hid : (sorted.map Veh.id).Nodup)
    (hv : sorted.get? j = some pv) (hw : sorted.get? (j + 1) = some pw) :
    (sorted.mapIdx (fun k v => vehStep L dt ms ma sp (eta k) (push k) sorted v)).get? j
      = some (vehPairStep L dt ms ma sp (eta j) (push j) pv pw) := by
  rw [mapIdx_get?, hv]
  have hcf : carInFront sorted pv.position = some pw :=
    carInFront_sorted sorted j pv pw hp hv hw
  have hne : pw.id ≠ pv.id :=
    (id_ne_of_get? sorted j (j + 1) pv pw hid hv hw (by omega)).symm
  simp only [Option.map_some']
  unfold vehStep
  rw [hcf]
  simp only [hne, ne_eq, not_false_eq_true, if_true]

/-- C5 (corrected).  `Track.calculate_next_state` agrees with the
two-phase (snapshot) reference on every vehicle except possibly the last
of each lane: a non-final vehicle's leader is the next vehicle by
position, processed only later in the pass, so the leader speed and
leader acceleration it reads are the start-of-pass values.  The lane's
last vehicle wraps around to the lane's first, already-updated vehicle,
and can read a freshly written acceleration (see the counterexample). -/
theorem decision_pass_snapshot_agreement (st : TrackState)
    (eta push : ℕ → ℕ → ℚ) (li : ℕ) (lane : List Veh)
    (hl : st.lanes.get? li = some lane)
    (hp : List.Pairwise (fun a b : Veh => a.position < b.position) (sortLane lane))
    (hid : ((sortLane lane).map Veh.id).Nodup)
    (j : ℕ) (hj : j + 1 < lane.length) :
    ((trackCalculateNextState st eta push).lanes.get? li).map (fun l => l.get? j)
      = ((trackCalculateNextStateSnap st eta push).lanes.get? li).map
          (fun l => l.get? j) := by
  have hlen : (sortLane lane).length = lane.length :=
    List.length_insertionSort _ lane
  have hjs : j < (sortLane lane).length := by omega
  have hjs1 : j + 1 < (sortLane lane).length := by omega
  obtain ⟨pv, hv⟩ : ∃ pv, (sortLane lane).get? j = some pv :=
    ⟨_, List.get?_eq_get hjs⟩
  obtain ⟨pw, hw⟩ : ∃ pw, (sortLane lane).get? (j + 1) = some pw :=
    ⟨_, List.get?_eq_get hjs1⟩
  simp only [trackCalculateNextState, trackCalculateNextStateSnap]
  rw [mapIdx_get?, mapIdx_get?, hl]
  simp only [Option.map_some']
  simp only [laneDecisionPass, laneSnapPass]
  have hseq := laneSeqGo_get?_sorted st.length st.dt
      (laneMeanSpeed st.central_control (sortLane lane)) st.max_accel st.speed_push
      (eta li) (push li) (sortLane lane) [] 0 j pv pw (by simpa using hp)
      (by simpa using hid) hv hw
  simp only [List.length_nil, Nat.zero_add] at hseq
  have hsnap := laneSnap_get?_sorted st.length st.dt
      (laneMeanSpeed st.central_control (sortLane lane)) st.max_accel st.speed_push
      (eta li) (push li) (sortLane lane) j pv pw hp hid hv hw
  rw [hseq, hsnap]


/-- C5, slow lead vehicle of the failing input (wrap-around leader). -/
def c5Slow : Veh := mkVehicle 0 0 3

/-- C5, follower whose decision reads its leader's acceleration. -/
def c5Fast : Veh := mkVehicle 1 50 10

/-- C5 failing input: a short ring (length 60) with one lane of two
vehicles; `c5Fast`'s leader wraps around to `c5Slow`, which is processed
first. -/
def c5St : TrackState := TrackState.mk [[c5Slow, c5Fast]] 60 1 false 1 (1/2)

/-- C5, counterexample.  In the sequential pass, `c5Slow` (processed
first) accelerates to `1.1`; `c5Fast`, whose leader wraps around to
`c5Slow`, then decelerates using the freshly written `a_L = 1.1`
(emergency case: `1.1 - 0.7625 = 0.3375 = 27/80`).  The two-phase
reference uses the snapshot `a_L = 0` and gets `-0.7625 = -61/80`, so
`Track.calculate_next_state` differs from the snapshot reference. -/
theorem decision_pass_live_acceleration_cex :
    (((trackCalculateNextState c5St (fun _ _ => 0) (fun _ _ => 0)).lanes.get? 0).getD
        []).map Veh.acceleration = [11/10, 27/80]
    ∧ (((trackCalculateNextStateSnap c5St (fun _ _ => 0) (fun _ _ => 0)).lanes.get? 0).getD
        []).map Veh.acceleration = [11/10, -61/80]
    ∧ trackCalculateNextState c5St (fun _ _ => 0) (fun _ _ => 0)
        ≠ trackCalculateNextStateSnap c5St (fun _ _ => 0) (fun _ _ => 0) := by
  have h1 : (((trackCalculateNextState c5St (fun _ _ => 0) (fun _ _ => 0)).lanes.get?
        0).getD []).map Veh.acceleration = [11/10, 27/80] := by
    norm_num [trackCalculateNextState, laneDecisionPass, laneMeanSpeed, laneSeqGo,
      vehStep, vehPairStep, carInFront, List.find?, calculateNextState,
      computeDecision, computeDecisionVal, deccelerationRate, accelerationRate,
      computeSafeSpeed, pymod, sortLane, List.insertionSort, List.orderedInsert,
      List.mapIdx_cons, List.mapIdx_nil, c5St, c5Slow, c5Fast, mkVehicle,
      min_def, max_def]
  have h2 : (((trackCalculateNextStateSnap c5St (fun _ _ => 0) (fun _ _ => 0)).lanes.get?
        0).getD []).map Veh.acceleration = [11/10, -61/80] := by
    norm_num [trackCalculateNextStateSnap, laneSnapPass, laneMeanSpeed,
      vehStep, vehPairStep, carInFront, List.find?, calculateNextState,
      computeDecision, computeDecisionVal, deccelerationRate, accelerationRate,
      computeSafeSpeed, pymod, sortLane, List.insertionSort, List.orderedInsert,
      List.mapIdx_cons, List.mapIdx_nil, c5St, c5Slow, c5Fast, mkVehicle,
      min_def, max_def]
  refine ⟨h1, h2, ?_⟩
  intro h
  rw [h] at h1
  have h3 := h1.symm.trans h2
  norm_num at h3

/-- C5, witness for the agreement theorem at the failing input's
non-final vehicle (index 0). -/
theorem decision_pass_snapshot_agreement_witness :
    ((trackCalculateNextState c5St (fun _ _ => 0) (fun _ _ => 0)).lanes.get? 0).map
        (fun l => l.get? 0)
      = ((trackCalculateNextStateSnap c5St (fun _ _ => 0) (fun _ _ => 0)).lanes.get?
          0).map (fun l => l.get? 0) :=
  decision_pass_snapshot_agreement c5St (fun _ _ => 0) (fun _ _ => 0) 0
    [c5Slow, c5Fast] rfl
    (by norm_num [sortLane, List.insertionSort, List.orderedInsert,
      List.pairwise_cons, c5Slow, c5Fast, mkVehicle])
    (by norm_num [sortLane, List.insertionSort, List.orderedInsert,
      List.nodup_cons, c5Slow, c5Fast, mkVehicle])
    0 (by norm_num)

/-! Section: C10: the history lists -/

/-- The committed speeds of a run, in order. -/
def runSpeeds (v : Veh) : List StepIn → List ℚ
  | [] => []
  | s :: t => (vehRunStep v s).current_speed :: runSpeeds (vehRunStep v s) t

/-- The committed positions of a run, in order. -/
def runPositions (v : Veh) : List StepIn → List ℚ
  | [] => []
  | s :: t => (vehRunStep v s).position :: runPositions (vehRunStep v s) t

theorem vehRunStep_lists (v : Veh) (s : StepIn) :
    (vehRunStep v s).speed_list = v.speed_list ++ [(vehRunStep v s).current_speed]
    ∧ (vehRunStep v s).position_list = v.position_list ++ [(vehRunStep v s).position]
    ∧ (vehRunStep v s).lane_list = v.lane_list ++ [s.lane] := by
  rcases s with ⟨gap, vL, aL, dt, ms, ma, sp, e, p, lane⟩
  cases ms <;> exact ⟨rfl, rfl, rfl⟩

theorem vehRun_cons (v : Veh) (s : StepIn) (t : List StepIn) :
    vehRun v (s :: t) = vehRun (vehRunStep v s) t := rfl

theorem vehRun_speed_list : ∀ (ss : List StepIn) (v : Veh),
    (vehRun v ss).speed_list = v.speed_list ++ runSpeeds v ss := by
  intro ss
  induction ss with
  | nil => intro v; simp [vehRun, runSpeeds]
  | cons s t ih =>
    intro v
    rw [vehRun_cons, runSpeeds, ih, (vehRunStep_lists v s).1, List.append_assoc]
    rfl

theorem vehRun_position_list : ∀ (ss : List StepIn) (v : Veh),
    (vehRun v ss).position_list = v.position_list ++ runPositions v ss := by
  intro ss
  induction ss with
  | nil => intro v; simp [vehRun, runPositions]
  | cons s t ih =>
    intro v
    rw [vehRun_cons, runPositions, ih, (vehRunStep_lists v s).2.1, List.append_assoc]
    rfl

theorem vehRun_lane_list : ∀ (ss : List StepIn) (v : Veh),
    (vehRun v ss).lane_list = v.lane_list ++ ss.map StepIn.lane := by
  intro ss
  induction ss with
  | nil => intro v; simp [vehRun]
  | cons s t ih =>
    intro v
    rw [vehRun_cons, List.map_cons, ih, (vehRunStep_lists v s).2.2, List.append_assoc]
    rfl

theorem runSpeeds_length : ∀ (ss : List StepIn) (v : Veh),
    (runSpeeds v ss).length = ss.length := by
  intro ss
  induction ss with
  | nil => intro v; rfl
  | cons s t ih => intro v; simp [runSpeeds, ih]

theorem runPositions_length : ∀ (ss : List StepIn) (v : Veh),
    (runPositions v ss).length = ss.length := by
  intro ss
  induction ss with
  | nil => intro v; rfl
  | cons s t ih => intro v; simp [runPositions, ih]

theorem runSpeeds_get? : ∀ (ss : List StepIn) (v : Veh) (i : ℕ), i < ss.length →
    (runSpeeds v ss).get? i = some ((vehRun v (ss.take (i + 1))).current_speed) := by
  intro ss
  induction ss with
  | nil => intro v i hi; simp at hi
  | cons s t ih =>
    intro v i hi
    cases i with
    | zero => simp [runSpeeds, List.take, vehRun_cons, vehRun]
    | succ j =>
      rw [runSpeeds, List.get?_cons_succ, List.take_succ_cons, vehRun_cons]
      exact ih (vehRunStep v s) j (by simpa using hi)

theorem runPositions_get? : ∀ (ss : List StepIn) (v : Veh) (i : ℕ), i < ss.length →
    (runPositions v ss).get? i = some ((vehRun v (ss.take (i + 1))).position) := by
  intro ss
  induction ss with
  | nil => intro v i hi; simp at hi
  | cons s t ih =>
    intro v i hi
    cases i with
    | zero => simp [runPositions, List.take, vehRun_cons, vehRun]
    | succ j =>
      rw [runPositions, List.get?_cons_succ, List.take_succ_cons, vehRun_cons]
      exact ih (vehRunStep v s) j (by simpa using hi)

/-- C10.  The history lists start as the sentinel `[0]` at construction
(and after `reset_data`); after `T` commits each list has `T + 1`
entries; index `0` holds the constant `0` whatever the initial position,
speed, or lane; and index `i + 1` holds exactly what the `(i+1)`-th
`update_state` committed — the new `current_speed`, the new `position`,
and the lane index passed to that call. -/
theorem history_lists_structure (idv : ℕ) (p0 s0 d m len an am b tp ac : ℚ)
    (ss : List StepIn) :
    ((vehRun (mkVehicle idv p0 s0 d m len an am b tp ac) ss).speed_list.length
        = ss.length + 1
      ∧ (vehRun (mkVehicle idv p0 s0 d m len an am b tp ac) ss).position_list.length
        = ss.length + 1
      ∧ (vehRun (mkVehicle idv p0 s0 d m len an am b tp ac) ss).lane_list.length
        = ss.length + 1)
    ∧ ((vehRun (mkVehicle idv p0 s0 d m len an am b tp ac) ss).speed_list.get? 0
        = some 0
      ∧ (vehRun (mkVehicle idv p0 s0 d m len an am b tp ac) ss).position_list.get? 0
        = some 0
      ∧ (vehRun (mkVehicle idv p0 s0 d m len an am b tp ac) ss).lane_list.get? 0
        = some 0)
    ∧ (∀ i, i < ss.length →
        (vehRun (mkVehicle idv p0 s0 d m len an am b tp ac) ss).speed_list.get? (i + 1)
          = some ((vehRun (mkVehicle idv p0 s0 d m len an am b tp ac)
              (ss.take (i + 1))).current_speed)
        ∧ (vehRun (mkVehicle idv p0 s0 d m len an am b tp ac) ss).position_list.get?
              (i + 1)
          = some ((vehRun (mkVehicle idv p0 s0 d m len an am b tp ac)
              (ss.take (i + 1))).position)
        ∧ (vehRun (mkVehicle idv p0 s0 d m len an am b tp ac) ss).lane_list.get? (i + 1)
          = (ss.get? i).map StepIn.lane)
    ∧ (∀ v : Veh, (resetData v).speed_list = [0] ∧ (resetData v).position_list = [0]
        ∧ (resetData v).lane_list = [0]) := by
  refine ⟨⟨?_, ?_, ?_⟩, ⟨?_, ?_, ?_⟩, ?_, fun v => ⟨rfl, rfl, rfl⟩⟩
  · rw [vehRun_speed_list]
    simp [mkVehicle, runSpeeds_length, Nat.add_comm]
  · rw [vehRun_position_list]
    simp [mkVehicle, runPositions_length, Nat.add_comm]
  · rw [vehRun_lane_list]
    simp [mkVehicle, Nat.add_comm]
  · rw [vehRun_speed_list]
    rfl
  · rw [vehRun_position_list]
    rfl
  · rw [vehRun_lane_list]
    rfl
  · intro i hi
    refine ⟨?_, ?_, ?_⟩
    · rw [vehRun_speed_list]
      rw [show (mkVehicle idv p0 s0 d m len an am b tp ac).speed_list = [0] from rfl]
      rw [List.singleton_append, List.get?_cons_succ]
      exact runSpeeds_get? ss _ i hi
    · rw [vehRun_position_list]
      rw [show (mkVehicle idv p0 s0 d m len an am b tp ac).position_list = [0] from rfl]
      rw [List.singleton_append, List.get?_cons_succ]
      exact runPositions_get? ss _ i hi
    · rw [vehRun_lane_list]
      rw [show (mkVehicle idv p0 s0 d m len an am b tp ac).lane_list = [0] from rfl]
      rw [List.singleton_append, List.get?_cons_succ, List.get?_map]

/-- C10, witness: a two-step run of a concretely constructed vehicle. -/
theorem history_lists_structure_witness :
    (0 : ℕ) < ([StepIn.mk 100 25 0 1 none 1 (1/2) 0 0 2,
        StepIn.mk 80 20 0 1 (some 20) 1 (1/2) 0 0 1] : List StepIn).length
    ∧ (vehRun (mkVehicle 3 7 5 30 35 5 (61/20) (151/25) (1/5) (6/5) (1/2))
        [StepIn.mk 100 25 0 1 none 1 (1/2) 0 0 2,
          StepIn.mk 80 20 0 1 (some 20) 1 (1/2) 0 0 1]).lane_list.get? (0 + 1)
      = (([StepIn.mk 100 25 0 1 none 1 (1/2) 0 0 2,
          StepIn.mk 80 20 0 1 (some 20) 1 (1/2) 0 0 1] : List StepIn).get? 0).map
          StepIn.lane := by
  refine ⟨by norm_num, ?_⟩
  exact ((history_lists_structure 3 7 5 30 35 5 (61/20) (151/25) (1/5) (6/5) (1/2)
    [StepIn.mk 100 25 0 1 none 1 (1/2) 0 0 2,
      StepIn.mk 80 20 0 1 (some 20) 1 (1/2) 0 0 1]).2.2.1 0 (by norm_num)).2.2

end Traffic
